import Mathlib

/-!
Verification of the support-tickets dashboard (`src/streamlit_app.py`).

The source file contains two successive revisions of the same Streamlit app,
concatenated: the first revision (lines 1-172) has five ticket columns, the
later revision (lines 175-347) adds an assignee and two time columns plus
filtering and CSV export.  This file shallowly embeds the Ticket Store
operations of both revisions and proves or refutes the specification claims
about them.

Conventions:
* pandas dataframes become Lean lists of `Ticket1` / `Ticket2` records,
  in row order;
* fallible Python code (`int(...)`, `max(...)` on an empty sequence, regex
  compilation) becomes `Option` / `Except`;
* machine-independent Python semantics (string comparison, `str.split`,
  decimal formatting) are re-implemented on `List Char` so they can be
  reasoned about directly.
-/

namespace SupportTickets

/-! ## Decimal rendering and parsing of ticket numbers -/

/-- The ASCII digit character for a digit `d < 10`; models how Python renders
one decimal digit inside an f-string such as `f"TICKET-{i}"`. -/
def digitChar (d : Nat) : Char := Char.ofNat (48 + d)

/-- Fuel-driven digit rendering; the fuel strictly bounds the argument, so
`decChars` below always supplies enough of it.  Structural recursion keeps
the function reducible by the kernel. -/
def decCharsAux : Nat → Nat → List Char
  | 0, _ => []
  | fuel + 1, n =>
    if n < 10 then [digitChar n]
    else decCharsAux fuel (n / 10) ++ [digitChar (n % 10)]

/-- Decimal digit characters of `n`, most significant first; models Python's
decimal rendering of a nonnegative integer (no leading zeros). -/
def decChars (n : Nat) : List Char := decCharsAux (n + 1) n

/-- Decimal rendering of a natural number as a string, as in `f"TICKET-{i}"`. -/
def natToDec (n : Nat) : String := ⟨decChars n⟩

/-- Whether a character is an ASCII decimal digit. -/
def isDigitCh (c : Char) : Bool := 48 ≤ c.toNat && c.toNat ≤ 57

/-- Models Python `int(s)` on the strings this app feeds it: a nonempty
all-digit string parses to its value, anything else raises (`none`).
(Python's `int` also tolerates signs, spaces and underscores, which never
occur in this app's ticket ids.) -/
def decParse? (s : String) : Option Nat :=
  if s.data ≠ [] ∧ s.data.all isDigitCh then
    some (s.data.foldl (fun a c => 10 * a + (c.toNat - 48)) 0)
  else none

/-! ## Python string primitives -/

/-- Split a character list at every occurrence of `c`; models Python
`str.split` with a single-character separator. -/
def splitOnCharL (c : Char) : List Char → List (List Char)
  | [] => [[]]
  | x :: xs =>
    if x = c then [] :: splitOnCharL c xs
    else
      match splitOnCharL c xs with
      | [] => [[x]]
      | h :: t => (x :: h) :: t

/-- Models Python `s.split(sep)` for a one-character separator `sep`. -/
def pySplit (c : Char) (s : String) : List String :=
  (splitOnCharL c s.data).map fun l => ⟨l⟩

/-- Models Python `str.lower` (and `re.IGNORECASE` folding) on the ASCII
strings this app works with. -/
def lowerStr (s : String) : String := ⟨s.data.map Char.toLower⟩

/-- Join character lists with the separator `c` between them. -/
def joinChar (c : Char) : List (List Char) → List Char
  | [] => []
  | [x] => x
  | x :: xs => x ++ c :: joinChar c xs

/-- Python's `<` on strings: lexicographic comparison by code point. -/
def listLtB : List Char → List Char → Bool
  | [], [] => false
  | [], _ :: _ => true
  | _ :: _, [] => false
  | a :: as, b :: bs =>
    if a.toNat < b.toNat then true
    else if b.toNat < a.toNat then false
    else listLtB as bs

/-- Python's `a < b` on two strings. -/
def pyStrLt (a b : String) : Bool := listLtB a.data b.data

/-- Models Python's builtin `max` over a sequence of strings, as in
`max(st.session_state.df.ID)` (line 81 / line 244 of the source): `none` on an
empty sequence (Python raises `ValueError`), otherwise the fold that keeps the
current value unless a strictly greater one appears.  Python compares strings
lexicographically by code point (`pyStrLt`). -/
def pyMaxStr : List String → Option String
  | [] => none
  | h :: t => some (t.foldl (fun a b => if pyStrLt a b then b else a) h)

/-! ## Dates -/

/-- One cell of the `"Date Submitted"` column.  Seeded rows hold Python
`datetime.date` objects (here: the day offset from `date(2023, 6, 1)`, as in
line 57 / 218 of the source); rows created by the submit branch hold the
string produced by `strftime` (line 82 / 245). -/
inductive DateCell where
  | pyDate (offsetDays : Nat)
  | str (s : String)
deriving DecidableEq, Repr

/-- Lengths of the months of 2023 starting from June, used to convert a day
offset from `date(2023, 6, 1)` back to a month and day. -/
def monthLengths2023H2 : List (Nat × Nat) :=
  [(6, 30), (7, 31), (8, 31), (9, 30), (10, 31), (11, 30), (12, 31)]

/-- Walk the month table to turn a day offset into `(month, day)`. -/
def monthDayFrom : Nat → List (Nat × Nat) → Nat × Nat
  | _, [] => (12, 31)
  | off, (m, len) :: rest => if off < len then (m, off + 1) else monthDayFrom (off - len) rest

/-- Two-digit zero-padded decimal, as `strftime` renders `%m` and `%d`. -/
def pad2 (n : Nat) : String := if n < 10 then ⟨'0' :: decChars n⟩ else natToDec n

/-- How pandas `to_csv` renders a `"Date Submitted"` cell: a `datetime.date`
prints as ISO `YYYY-MM-DD`; a string cell prints as itself. -/
def renderDateCell : DateCell → String
  | .pyDate off =>
    let md := monthDayFrom off monthLengths2023H2
    "2023-" ++ pad2 md.1 ++ "-" ++ pad2 md.2
  | .str s => s

/-- Models `datetime.datetime.now().strftime("%m-%d-%Y")` (first revision,
line 82) applied to the current date `(y, m, d)`. -/
def strftimeMDY (y m d : Nat) : String := pad2 m ++ "-" ++ pad2 d ++ "-" ++ natToDec y

/-- Models `datetime.datetime.now().strftime("%Y-%m-%d")` (later revision,
line 245) applied to the current date `(y, m, d)`. -/
def strftimeYMD (y m d : Nat) : String := natToDec y ++ "-" ++ pad2 m ++ "-" ++ pad2 d

/-! ## Data model -/

/-- One row of the first revision's dataframe (lines 51-60). -/
structure Ticket1 where
  id : String
  issue : String
  status : String
  priority : String
  dateSubmitted : DateCell
deriving DecidableEq, Repr

/-- One row of the later revision's dataframe (lines 212-224). -/
structure Ticket2 where
  id : String
  issue : String
  status : String
  priority : String
  dateSubmitted : DateCell
  assignedTo : String
  responseTime : Nat
  resolutionTime : Nat
deriving DecidableEq, Repr

/-- The fixed status options (lines 54, 117-122, 273). -/
def statusOptions : List String := ["Open", "In Progress", "Closed"]

/-- The fixed priority options (lines 55, 75, 274). -/
def priorityOptions : List String := ["High", "Medium", "Low"]

/-- The fixed team-member options of the later revision (lines 221, 237, 275). -/
def teamMembers : List String := ["John Doe", "Jane Smith", "Alex Brown", "Chris White"]

/-- The issue descriptions sampled by the first revision's seeding (lines 27-48). -/
def issueDescriptions1 : List String :=
  ["Network connectivity issues in the office",
   "Software application crashing on startup",
   "Printer not responding to print commands",
   "Email server downtime",
   "Data backup failure",
   "Login authentication problems",
   "Website performance degradation",
   "Security vulnerability identified",
   "Hardware malfunction in the server room",
   "Employee unable to access shared files",
   "Database connection failure",
   "Mobile application not syncing data",
   "VoIP phone system issues",
   "VPN connection problems for remote employees",
   "System updates causing compatibility issues",
   "File server running out of storage space",
   "Intrusion detection system alerts",
   "Inventory management system errors",
   "Customer data not loading in CRM",
   "Collaboration tool not sending notifications"]

/-- The issue descriptions sampled by the later revision's seeding (lines 201-209). -/
def issueDescriptions2 : List String :=
  ["Network connectivity issues", "Application crashing", "Printer malfunction",
   "Email server downtime", "Backup failure", "Login problems", "Website slowdown",
   "Security vulnerability", "Hardware malfunction", "Access issue with shared files",
   "Database connection issue", "App data not syncing", "VoIP phone issues",
   "VPN problems for remote workers", "System update issues", "File server storage low",
   "Intrusion detection alerts", "Inventory system errors", "Customer data missing",
   "Collaboration tool issue"]

/-! ## Random generators

`np.random.seed(42)` (lines 24 / 198) seeds numpy's global Mersenne Twister,
after which every numpy draw is a pure function of the seed and the draw
index.  `npRandom seed k` models the `k`-th draw of that seeded stream as a
concrete pure mixing function; the only fact the development relies on is
that it is a function of `(seed, k)` alone.

The date column, however, is generated with `random.randint(0, 182)`
(lines 57 / 218) from the **Python** `random` module, whose global state is
never seeded by this app; it is seeded from OS entropy when the interpreter
starts.  It is therefore modelled as an arbitrary stream `pyRand : Nat → Nat`
supplied by the environment, with draw `i` giving the offset
`pyRand i % 183` (the 183 values 0..182 of `randint(0, 182)`). -/

/-- Model of the seeded numpy global generator: the `k`-th draw after
`np.random.seed(seed)`, as a pure mixing function of seed and index. -/
def npRandom (seed k : Nat) : Nat :=
  ((seed + 1) * 2654435761 + (k + 1) * 1103515245 + (seed + k + 7) * 12345) % 4294967296

/-- Models `np.random.choice(options, ...)`: pick the element indexed by the
draw, reduced modulo the number of options. -/
def choiceOf (l : List String) (r : Nat) : String := l.getD (r % l.length) ""

/-! ## Seeding -/

/-- The first revision's seeding block (lines 21-65): ids `TICKET-1100` down
to `TICKET-1001`, issue/status/priority sampled from the seeded numpy stream,
submission date sampled from the unseeded Python `random` stream `pyRand`. -/
def seedTickets1 (seed : Nat) (pyRand : Nat → Nat) : List Ticket1 :=
  (List.range 100).map fun i =>
    { id := "TICKET-" ++ natToDec (1100 - i)
      issue := choiceOf issueDescriptions1 (npRandom seed i)
      status := choiceOf statusOptions (npRandom seed (100 + i))
      priority := choiceOf priorityOptions (npRandom seed (200 + i))
      dateSubmitted := .pyDate (pyRand i % 183) }

/-- The later revision's seeding block (lines 195-228): as `seedTickets1`
plus assignee and the two time columns; `np.random.randint(1, 12)` draws from
1..11 and `np.random.randint(10, 72)` from 10..71 (exclusive upper bounds). -/
def seedTickets2 (seed : Nat) (pyRand : Nat → Nat) : List Ticket2 :=
  (List.range 100).map fun i =>
    { id := "TICKET-" ++ natToDec (1100 - i)
      issue := choiceOf issueDescriptions2 (npRandom seed i)
      status := choiceOf statusOptions (npRandom seed (100 + i))
      priority := choiceOf priorityOptions (npRandom seed (200 + i))
      dateSubmitted := .pyDate (pyRand i % 183)
      assignedTo := choiceOf teamMembers (npRandom seed (300 + i))
      responseTime := 1 + npRandom seed (400 + i) % 11
      resolutionTime := 10 + npRandom seed (500 + i) % 62 }

/-! ## AddTicket -/

/-- `recent_ticket_number = int(max(ids).split("-")[1])` (lines 81 / 244):
`none` models the exceptions Python would raise (`max` of an empty sequence,
a missing second `split` component, a failing `int`). -/
def recentTicketNumber (ids : List String) : Option Nat :=
  (pyMaxStr ids).bind fun maxId =>
    ((pySplit '-' maxId)[1]?).bind fun suffixStr => decParse? suffixStr

/-- The first revision's submit branch (lines 78-98): compute the recent
ticket number from the id strings, render today with `strftime("%m-%d-%Y")`,
and prepend the new row via `pd.concat([df_new, st.session_state.df])`. -/
def addTicket1 (df : List Ticket1) (issue priority : String)
    (nowY nowM nowD : Nat) : Option (List Ticket1) :=
  match recentTicketNumber (df.map Ticket1.id) with
  | none => none
  | some k =>
    some ({ id := "TICKET-" ++ natToDec (k + 1)
            issue := issue
            status := "Open"
            priority := priority
            dateSubmitted := .str (strftimeMDY nowY nowM nowD) } :: df)

/-- The later revision's submit branch (lines 242-264): as `addTicket1` with
the three extra fields and today rendered with `strftime("%Y-%m-%d")`. -/
def addTicket2 (df : List Ticket2) (issue priority assignedTo : String)
    (responseTime resolutionTime : Nat) (nowY nowM nowD : Nat) : Option (List Ticket2) :=
  match recentTicketNumber (df.map Ticket2.id) with
  | none => none
  | some k =>
    some ({ id := "TICKET-" ++ natToDec (k + 1)
            issue := issue
            status := "Open"
            priority := priority
            dateSubmitted := .str (strftimeYMD nowY nowM nowD)
            assignedTo := assignedTo
            responseTime := responseTime
            resolutionTime := resolutionTime } :: df)

/-! ## Regular expressions

Line 283 of the source filters with
`st.session_state.df["Issue"].str.contains(search_query, case=False)`.
pandas `Series.str.contains` treats its pattern as a **regular expression**
(its default is `regex=True`): the entry matches when `re.search` finds a
match anywhere in the string, and an invalid pattern raises `re.error`.

The model below implements the fragment of Python's `re` syntax built from
literal characters, `.`, the postfix repeaters `*` `+` `?`, alternation `|`
and grouping `(...)`.  Patterns using any other metacharacter
(`[ ] \ ^ $` and the brace quantifiers) are outside the modelled fragment
and are rejected by the parser; every pattern the parser accepts has the
same `re.search` semantics in Python.  Matching is by Brzozowski
derivatives; `case=False` is modelled by lower-casing both pattern and
text (ASCII `re.IGNORECASE`). -/

/-- Regular-expression abstract syntax for the modelled fragment of `re`. -/
inductive Reg where
  | nul
  | eps
  | anyc
  | lit (c : Char)
  | alt (a b : Reg)
  | cat (a b : Reg)
  | star (a : Reg)
deriving DecidableEq, Repr

/-- Whether a regex matches the empty string. -/
def nullable : Reg → Bool
  | .nul => false
  | .eps => true
  | .anyc => false
  | .lit _ => false
  | .alt a b => nullable a || nullable b
  | .cat a b => nullable a && nullable b
  | .star _ => true

/-- Brzozowski derivative of a regex with respect to one character. -/
def deriv : Reg → Char → Reg
  | .nul, _ => .nul
  | .eps, _ => .nul
  | .anyc, _ => .eps
  | .lit c, d => if c = d then .eps else .nul
  | .alt a b, d => .alt (deriv a d) (deriv b d)
  | .cat a b, d => if nullable a then .alt (.cat (deriv a d) b) (deriv b d) else .cat (deriv a d) b
  | .star a, d => .cat (deriv a d) (.star a)

/-- Whether some prefix of the character list matches the regex. -/
def matchesPref : Reg → List Char → Bool
  | r, [] => nullable r
  | r, c :: cs => nullable r || matchesPref (deriv r c) cs

/-- Whether the regex matches somewhere inside the character list; models
`re.search` returning a match (at any start position). -/
def rsearch (r : Reg) : List Char → Bool
  | [] => nullable r
  | c :: cs => matchesPref r (c :: cs) || rsearch r cs

/-- Metacharacters of Python `re` outside the modelled fragment; a pattern
containing one is rejected by the model's parser. -/
def unsupportedMeta : List Char :=
  ['[', ']', '\\', '^', '$', Char.ofNat 123, Char.ofNat 125]

/-- Consume at most one postfix repeater after an atom: `*`, `+` (one copy
then a star) or `?` (optional). -/
def applyRepeats (r : Reg) (s : List Char) : Reg × List Char :=
  match s with
  | '*' :: rest => (.star r, rest)
  | '+' :: rest => (.cat r (.star r), rest)
  | '?' :: rest => (.alt r .eps, rest)
  | _ => (r, s)

mutual

/-- Parse an alternation (`a|b|...`); the fuel argument strictly decreases on
every call, and `parseRegex` supplies enough of it for any input. -/
def parseAltLevel (fuel : Nat) (s : List Char) : Option (Reg × List Char) :=
  match fuel with
  | 0 => none
  | f + 1 =>
    match parseCatLevel f s with
    | none => none
    | some (r, rest) =>
      match rest with
      | '|' :: rest' =>
        match parseAltLevel f rest' with
        | none => none
        | some (r2, rest'') => some (.alt r r2, rest'')
      | _ => some (r, rest)

/-- Parse a (possibly empty) concatenation of repeated atoms. -/
def parseCatLevel (fuel : Nat) (s : List Char) : Option (Reg × List Char) :=
  match fuel with
  | 0 => none
  | f + 1 =>
    match parseAtomLevel f s with
    | none => some (.eps, s)
    | some (r, rest) =>
      let rr := applyRepeats r rest
      match parseCatLevel f rr.2 with
      | none => none
      | some (r2, rest'') => some (.cat rr.1 r2, rest'')

/-- Parse one atom: a group, `.`, or a literal character.  Repeaters with
nothing to repeat, stray `)`, and unsupported metacharacters all fail, as
`re.compile` raises on them. -/
def parseAtomLevel (fuel : Nat) (s : List Char) : Option (Reg × List Char) :=
  match fuel with
  | 0 => none
  | f + 1 =>
    match s with
    | [] => none
    | '(' :: rest =>
      match parseAltLevel f rest with
      | some (r, ')' :: rest') => some (r, rest')
      | _ => none
    | c :: rest =>
      if c = ')' || c = '|' || c = '*' || c = '+' || c = '?' then none
      else if unsupportedMeta.contains c then none
      else if c = '.' then some (.anyc, rest)
      else some (.lit c, rest)

end

/-- Compile a search pattern, as `re.compile` inside `str.contains` does:
`.ok` with the parsed regex, or `.error` when the pattern is invalid (for
example an unterminated group) or outside the modelled fragment. -/
def parseRegex (s : String) : Except String Reg :=
  match parseAltLevel (3 * s.data.length + 3) s.data with
  | some (r, []) => .ok r
  | some (_, _ :: _) => .error "re.error: invalid pattern (unbalanced parenthesis or stray repeat)"
  | none => .error "re.error: invalid pattern"

/-! ## Filter -/

/-- The later revision's filter expression (lines 279-284): keep the rows
whose status, priority and assignee are `isin` the selected lists and whose
issue matches the search query as a case-insensitive regular expression.
`.error` models the `re.error` exception `str.contains` raises on an invalid
pattern, which aborts the whole script run. -/
def filterTickets (df : List Ticket2) (statusFilter priorityFilter assignedFilter : List String)
    (searchQuery : String) : Except String (List Ticket2) :=
  match parseRegex (lowerStr searchQuery) with
  | .error e => .error e
  | .ok r => .ok (df.filter fun t =>
      statusFilter.contains t.status && priorityFilter.contains t.priority &&
      assignedFilter.contains t.assignedTo && rsearch r (lowerStr t.issue).data)

/-- One evaluation of the filter block in a script run: the source computes
`filtered_df` from `st.session_state.df` (lines 279-284) without ever
assigning to the session state, so the pass returns the store unchanged
together with the derived view. -/
def filterStep (df : List Ticket2) (statusFilter priorityFilter assignedFilter : List String)
    (searchQuery : String) : List Ticket2 × Except String (List Ticket2) :=
  (df, filterTickets df statusFilter priorityFilter assignedFilter searchQuery)

/-! ## Editing -/

/-- The state of the session store after the data-editor block runs
(lines 112-132 and 287-306): the source binds the edited view to the local
`edited_df` and never assigns it (or any merge of it) back to
`st.session_state.df`, so the store is returned unchanged whatever the
edited view contains. -/
def storeAfterEdits (df editedDf : List Ticket2) : List Ticket2 := df

/-! ## Aggregate -/

/-- The metrics of the later revision's statistics block (lines 312-318). -/
structure Metrics2 where
  numOpenTickets : Nat
  avgResponseTime : Option ℚ
  avgResolutionTime : Option ℚ
deriving DecidableEq, Repr

/-- pandas `Series.mean`: the arithmetic mean over all rows, undefined
(`NaN`, modelled as `none`) on an empty column. -/
def seriesMean (l : List Nat) : Option ℚ :=
  if l.isEmpty then none else some ((l.sum : ℚ) / (l.length : ℚ))

/-- The later revision's metrics block (lines 312-318):
`len(df[df.Status == "Open"])` and the means of the two time columns, all
computed from the full session store. -/
def aggregate2 (df : List Ticket2) : Metrics2 :=
  { numOpenTickets := (df.filter fun t => t.status == "Open").length
    avgResponseTime := seriesMean (df.map Ticket2.responseTime)
    avgResolutionTime := seriesMean (df.map Ticket2.resolutionTime) }

/-! ## Export -/

/-- The CSV header row written by `to_csv(index=False)`: the column names of
the later revision's dataframe (lines 212-224). -/
def csvHeaderFields : List String :=
  ["ID", "Issue", "Status", "Priority", "Date Submitted", "Assigned To",
   "Response Time (hours)", "Resolution Time (hours)"]

/-- The textual field values of one row, in column order, as
`to_csv` renders them. -/
def renderRow2 (t : Ticket2) : List String :=
  [t.id, t.issue, t.status, t.priority, renderDateCell t.dateSubmitted, t.assignedTo,
   natToDec t.responseTime, natToDec t.resolutionTime]

/-- Characters that force `to_csv`'s minimal quoting of a field. -/
def isCsvSpecial (c : Char) : Bool := c = ',' || c = '"' || c = '\n' || c = '\r'

/-- Double every double quote, as CSV quoting escapes them. -/
def escapeQuotes (l : List Char) : List Char :=
  l.foldr (fun c acc => if c = '"' then '"' :: '"' :: acc else c :: acc) []

/-- One CSV field as `to_csv` writes it (`QUOTE_MINIMAL`): bare when it
contains no special character, otherwise wrapped in double quotes with inner
quotes doubled. -/
def csvField (f : String) : String :=
  if f.data.any isCsvSpecial then ⟨'"' :: (escapeQuotes f.data ++ ['"'])⟩ else f

/-- One CSV line: the fields joined with commas. -/
def csvLine (fields : List String) : List Char :=
  joinChar ',' (fields.map fun f => (csvField f).data)

/-- `st.session_state.df.to_csv(index=False)` (line 343): the header line
followed by one line per row in store order, each line terminated by a
newline. -/
def exportCsv (df : List Ticket2) : String :=
  ⟨(csvLine csvHeaderFields :: (df.map renderRow2).map csvLine).foldr
    (fun l acc => l ++ '\n' :: acc) []⟩

/-- The download button (lines 341-346) serializes `st.session_state.df`;
the filter selections play no part in the expression, which this definition
records by ignoring them. -/
def downloadData (df : List Ticket2) (statusFilter priorityFilter assignedFilter : List String)
    (searchQuery : String) : String := exportCsv df

/-- Read an unquoted CSV field: the characters up to (excluding) the next
comma or newline, together with the unconsumed remainder. -/
def readBare : List Char → List Char × List Char
  | [] => ([], [])
  | c :: cs =>
    if c = ',' ∨ c = '\n' then ([], c :: cs)
    else
      let r := readBare cs
      (c :: r.1, r.2)

/-- Read the body of a quoted CSV field, after its opening quote: a doubled
quote stands for a literal quote, a lone quote closes the field; `none` on
an unterminated field. -/
def readQuoted : List Char → Option (List Char × List Char)
  | [] => none
  | c :: cs =>
    if c = '"' then
      match cs with
      | [] => some ([], [])
      | c2 :: cs2 =>
        if c2 = '"' then (readQuoted cs2).map fun p => ('"' :: p.1, p.2)
        else some ([], cs)
    else (readQuoted cs).map fun p => (c :: p.1, p.2)

/-- Read one CSV field, quoted or bare. -/
def readField : List Char → Option (List Char × List Char)
  | [] => some ([], [])
  | c :: cs => if c = '"' then readQuoted cs else some (readBare (c :: cs))

/-- Read one newline-terminated CSV record: comma-separated fields.  The
fuel bounds the number of fields; `readRecordsAux` supplies enough of it. -/
def readRecordAux : Nat → List Char → Option (List String × List Char)
  | 0, _ => none
  | fuel + 1, s =>
    match readField s with
    | none => none
    | some (f, rest) =>
      match rest with
      | [] => none
      | c :: r =>
        if c = ',' then
          match readRecordAux fuel r with
          | none => none
          | some (fs, r') => some ((⟨f⟩ : String) :: fs, r')
        else if c = '\n' then some ([(⟨f⟩ : String)], r)
        else none

/-- Read a sequence of newline-terminated CSV records until the input is
exhausted.  The fuel bounds the number of records. -/
def readRecordsAux : Nat → List Char → Option (List (List String))
  | 0, s => if s.isEmpty then some [] else none
  | fuel + 1, s =>
    if s.isEmpty then some []
    else
      match readRecordAux (s.length + 1) s with
      | none => none
      | some (r, rest) => (readRecordsAux fuel rest).map fun rs => r :: rs

/-- Parse CSV text back into a table of raw field values: read the
newline-terminated records (honouring quoted fields, so commas, quotes and
line breaks inside a field are restored), and drop the header record;
`none` on malformed text or when no header record exists. -/
def parseCsvText (txt : String) : Option (List (List String)) :=
  match readRecordsAux (txt.data.length + 1) txt.data with
  | some (_header :: dataRows) => some dataRows
  | _ => none

/-! ## Spec-side definitions -/

/-- Whether `pat` occurs as a contiguous sublist starting at the front. -/
def leadMatch : List Char → List Char → Bool
  | [], _ => true
  | _ :: _, [] => false
  | a :: p, b :: s => a == b && leadMatch p s

/-- Whether `pat` occurs as a contiguous sublist anywhere in `s`. -/
def subAt (pat : List Char) : List Char → Bool
  | [] => leadMatch pat []
  | s@(_ :: rest) => leadMatch pat s || subAt pat rest

/-- Modelled from the spec: the issue "contains `searchText` as a
case-insensitive substring" — plain substring containment after folding
case, the semantics the specification ascribes to the search box.  This is
the spec-side counterpart against which the code's regex semantics is
compared. -/
def specContainsCI (searchText issue : String) : Bool :=
  subAt (lowerStr searchText).data (lowerStr issue).data

/-! ## Reachability -/

/-- The numeric suffix of a ticket id, as the submit branch would parse it;
`0` when the id does not parse (the reachable stores below never hit that
case). -/
def idSuffix2 (t : Ticket2) : Nat :=
  (decParse? ((pySplit '-' t.id).getD 1 "")).getD 0

/-- The stores of the later revision reachable in a session: a seeded store
(any numpy seed, any state of the unseeded Python generator) followed by any
number of successful submit branches.  The remaining operations — the filter
block, the data-editor block, the metrics block and the CSV download — leave
`st.session_state.df` unchanged (see `filterStep`, `storeAfterEdits`,
`aggregate2`, `downloadData`), so they do not generate new stores. -/
inductive Reachable2 : List Ticket2 → Prop where
  | seed (seed : Nat) (pyRand : Nat → Nat) : Reachable2 (seedTickets2 seed pyRand)
  | add (df df' : List Ticket2) (issue priority assignedTo : String)
      (responseTime resolutionTime nowY nowM nowD : Nat) :
      Reachable2 df →
      addTicket2 df issue priority assignedTo responseTime resolutionTime nowY nowM nowD
        = some df' →
      Reachable2 df'

/-! ## Shared fixtures and small lemmas -/

/-- A representative well-formed ticket of the later revision. -/
def demoTicket : Ticket2 :=
  { id := "TICKET-1001", issue := "Email server downtime", status := "Open",
    priority := "High", dateSubmitted := .pyDate 0, assignedTo := "John Doe",
    responseTime := 3, resolutionTime := 24 }

/-- The ticket the later revision's submit branch builds on the demo store
on 2026-10-12 with issue `"x"`, priority `"Low"`, assignee
`"Jane Smith"` and estimated times 2 and 20. -/
def demoNewTicket : Ticket2 :=
  { id := "TICKET-1002", issue := "x", status := "Open", priority := "Low",
    dateSubmitted := .str "2026-10-12", assignedTo := "Jane Smith",
    responseTime := 2, resolutionTime := 20 }

/-- The empty pattern compiles to `eps`, which `re.search` matches at
position 0 of every string. -/
theorem rsearch_eps (l : List Char) : rsearch .eps l = true := by
  induction l with
  | nil => rfl
  | cons c cs ih => simp [rsearch, matchesPref, nullable]

/-- The parsed form of the literal search pattern `"email"`. -/
def emailReg : Reg :=
  .cat (.lit 'e') (.cat (.lit 'm') (.cat (.lit 'a') (.cat (.lit 'i') (.cat (.lit 'l') .eps))))

/-! ## C1 — seeding determinism -/

/-- **C1.** The seeding block is *not* deterministic in the random seed
alone: `np.random.seed(42)` (line 198) fixes every numpy-sampled column, but
the `"Date Submitted"` column is drawn with `random.randint(0, 182)`
(line 218) from the Python `random` module, whose global state is never
seeded.  Two runs of the seeding block with the same seed 42 but different
states of that unseeded generator produce different tables, while every
column other than the date column is identical.  This contradicts the
claimed (and intended, per the comment "Set seed for reproducibility")
same-seed determinism. -/
theorem seeding_not_deterministic_across_runs :
    (seedTickets2 42 (fun _ => 0) ≠ seedTickets2 42 (fun _ => 1)) ∧
    (∀ pyRand pyRand' : Nat → Nat,
      (seedTickets2 42 pyRand).map
        (fun t => (t.id, t.issue, t.status, t.priority, t.assignedTo,
                   t.responseTime, t.resolutionTime))
      = (seedTickets2 42 pyRand').map
        (fun t => (t.id, t.issue, t.status, t.priority, t.assignedTo,
                   t.responseTime, t.resolutionTime))) := by
  constructor
  · decide
  · intro pyRand pyRand'
    simp [seedTickets2, List.map_map, Function.comp]

/-! ## C2 — merging edits back into the store -/

/-- **C2.** The edited view is never merged back: `st.data_editor` returns
the edited dataframe into the local `edited_df` (lines 112 and 287) and no
statement ever assigns it, or any merge of it, to `st.session_state.df`.
Editing the demo ticket's status to `"Closed"` in the view leaves the store
row `"Open"`, where the claim requires the store row to carry the edited
value `"Closed"`. -/
theorem edits_never_reach_store :
    storeAfterEdits [demoTicket] [{ demoTicket with status := "Closed" }] = [demoTicket] ∧
    (storeAfterEdits [demoTicket] [{ demoTicket with status := "Closed" }]).map Ticket2.status
      = ["Open"] ∧
    (["Open"] : List String) ≠ ["Closed"] := by
  refine ⟨rfl, rfl, by decide⟩

/-! ## C4 — filter semantics -/

/-- **C4 (counterexample).** The search predicate is not substring
containment: `str.contains` with its `regex=True` default treats the query
as a regular expression, so the query `"email.server"` (where `.` matches
any character) selects the row whose issue is `"Email server downtime"`,
even though `"email.server"` is not a case-insensitive substring of that
issue.  The claim, as stated, is false for this store and criteria. -/
theorem filter_returns_non_substring_match :
    filterTickets [demoTicket] statusOptions priorityOptions teamMembers "email.server"
      = .ok [demoTicket] ∧
    specContainsCI "email.server" demoTicket.issue = false := by
  refine ⟨rfl, by decide⟩

/-- **C4 (amended).** For every store and criteria whose search text
compiles as a regular expression, the filter returns exactly the rows whose
status, priority and assignee belong to the respective selections and whose
issue matches the search text as a case-insensitive regular expression
(`re.search` semantics); an empty search text matches every row, so it
returns all rows satisfying the other three predicates. -/
theorem filter_characterization (df : List Ticket2) (sf pf af : List String)
    (q : String) (r : Reg) (h : parseRegex (lowerStr q) = .ok r) :
    filterTickets df sf pf af q
      = .ok (df.filter fun t =>
          sf.contains t.status && pf.contains t.priority &&
          af.contains t.assignedTo && rsearch r (lowerStr t.issue).data) ∧
    (∀ t, t ∈ (df.filter fun t =>
          sf.contains t.status && pf.contains t.priority &&
          af.contains t.assignedTo && rsearch r (lowerStr t.issue).data)
       ↔ t ∈ df ∧ (sf.contains t.status && pf.contains t.priority &&
          af.contains t.assignedTo && rsearch r (lowerStr t.issue).data)) ∧
    (q = "" →
      filterTickets df sf pf af q
        = .ok (df.filter fun t =>
            sf.contains t.status && pf.contains t.priority && af.contains t.assignedTo)) := by
  refine ⟨by rw [filterTickets, h], fun t => List.mem_filter, ?_⟩
  rintro rfl
  have h0 : parseRegex (lowerStr "") = Except.ok Reg.eps := rfl
  rw [h0] at h
  injection h with h
  have hfc : (df.filter fun t =>
        sf.contains t.status && pf.contains t.priority &&
        af.contains t.assignedTo && rsearch Reg.eps (lowerStr t.issue).data)
      = df.filter fun t =>
        sf.contains t.status && pf.contains t.priority && af.contains t.assignedTo := by
    apply List.filter_congr
    intro t _
    simp [rsearch_eps]
  calc filterTickets df sf pf af ""
      = .ok (df.filter fun t =>
          sf.contains t.status && pf.contains t.priority &&
          af.contains t.assignedTo && rsearch Reg.eps (lowerStr t.issue).data) := rfl
    _ = .ok (df.filter fun t =>
          sf.contains t.status && pf.contains t.priority && af.contains t.assignedTo) := by
        rw [hfc]

/-- Witness for `filter_characterization` at the concrete query `"email"`
on the one-row demo store. -/
theorem filter_characterization_witness :
    parseRegex (lowerStr "email") = .ok emailReg ∧
    filterTickets [demoTicket] statusOptions priorityOptions teamMembers "email"
      = .ok ([demoTicket].filter fun t =>
          statusOptions.contains t.status && priorityOptions.contains t.priority &&
          teamMembers.contains t.assignedTo && rsearch emailReg (lowerStr t.issue).data) :=
  ⟨rfl, (filter_characterization [demoTicket] statusOptions priorityOptions teamMembers
    "email" emailReg rfl).1⟩

/-! ## C5 — totality of the operations -/

/-- **C5.** `Filter` is not total over arbitrary search strings: the query
is handed to `str.contains` as a regular expression, and the search text
`"("` is an invalid pattern, so `re.error` is raised and the script run
aborts instead of returning a view — here on a well-formed freshly seeded
store with all statuses, priorities and assignees selected. -/
theorem filter_raises_on_invalid_pattern :
    filterTickets (seedTickets2 42 (fun _ => 0)) statusOptions priorityOptions teamMembers "("
      = .error "re.error: invalid pattern (unbalanced parenthesis or stray repeat)" := rfl

/-! ## C9 — filter purity -/

/-- **C9.** The filter block never mutates the store: one evaluation of the
filter expression returns `st.session_state.df` unchanged — the source
computes `filtered_df` (lines 279-284) without assigning to the session
state — and the view component is exactly the pure function
`filterTickets` of the store and the criteria. -/
theorem filter_leaves_store_unchanged (df : List Ticket2) (sf pf af : List String)
    (q : String) :
    (filterStep df sf pf af q).1 = df ∧
    (filterStep df sf pf af q).2 = filterTickets df sf pf af q :=
  ⟨rfl, rfl⟩

/-! ## C6 — aggregation -/

/-- **C6.** The metrics are the open-row count and the two column means of
the *current* store: after a successful submit (which creates a ticket with
status `"Open"` and prepends it), recomputing the metrics on the new store
reports an open count exactly one larger, equal to the number of `"Open"`
rows of the new store, and the two averages are the arithmetic means of the
time columns over all rows of the new store. -/
theorem aggregate_tracks_store_after_add
    (df df' : List Ticket2) (issue priority assignedTo : String)
    (rt rst y m d : Nat)
    (h : addTicket2 df issue priority assignedTo rt rst y m d = some df') :
    (aggregate2 df').numOpenTickets = (aggregate2 df).numOpenTickets + 1 ∧
    (aggregate2 df').numOpenTickets = (df'.filter fun t => t.status == "Open").length ∧
    (aggregate2 df').avgResponseTime
      = some (((df'.map Ticket2.responseTime).sum : ℚ) / (df'.length : ℚ)) ∧
    (aggregate2 df').avgResolutionTime
      = some (((df'.map Ticket2.resolutionTime).sum : ℚ) / (df'.length : ℚ)) := by
  unfold addTicket2 at h
  split at h
  · exact Option.noConfusion h
  injection h with h
  subst h
  refine ⟨?_, rfl, ?_, ?_⟩
  · simp [aggregate2, List.filter_cons]
  · simp [aggregate2, seriesMean]
  · simp [aggregate2, seriesMean]

/-- Witness for `aggregate_tracks_store_after_add` on the one-row demo
store. -/
theorem aggregate_tracks_store_after_add_witness :
    (addTicket2 [demoTicket] "x" "Low" "Jane Smith" 2 20 2026 10 12
      = some (demoNewTicket :: [demoTicket])) ∧
    (aggregate2 (demoNewTicket :: [demoTicket])).numOpenTickets
      = (aggregate2 [demoTicket]).numOpenTickets + 1 :=
  ⟨rfl, (aggregate_tracks_store_after_add [demoTicket] _ "x" "Low" "Jane Smith"
    2 20 2026 10 12 rfl).1⟩

/-! ## C10 — mixed representations in the Date Submitted column -/

/-- **C10.** After any successful submit on a seeded store, the
`"Date Submitted"` column mixes two representations: the new head row holds
the `strftime` **string** — `"%m-%d-%Y"` (month-day-year) in the first
revision, `"%Y-%m-%d"` (year-month-day) in the later one — while every
remaining row (the seeded ones) holds a `datetime.date` value. -/
theorem date_column_mixed_after_add
    (seed : Nat) (pyRand : Nat → Nat) (y m d : Nat)
    (issue1 prio1 : String) (df1' : List Ticket1)
    (h1 : addTicket1 (seedTickets1 seed pyRand) issue1 prio1 y m d = some df1')
    (issue2 prio2 asg : String) (rt rst : Nat) (df2' : List Ticket2)
    (h2 : addTicket2 (seedTickets2 seed pyRand) issue2 prio2 asg rt rst y m d = some df2') :
    (df1'.head?.map Ticket1.dateSubmitted = some (.str (strftimeMDY y m d)) ∧
      ∀ t ∈ df1'.tail, ∃ off, t.dateSubmitted = DateCell.pyDate off) ∧
    (df2'.head?.map Ticket2.dateSubmitted = some (.str (strftimeYMD y m d)) ∧
      ∀ t ∈ df2'.tail, ∃ off, t.dateSubmitted = DateCell.pyDate off) := by
  constructor
  · unfold addTicket1 at h1
    split at h1
    · exact Option.noConfusion h1
    injection h1 with h1
    subst h1
    refine ⟨rfl, ?_⟩
    intro t ht
    rw [List.tail_cons, seedTickets1] at ht
    obtain ⟨i, _, rfl⟩ := List.mem_map.1 ht
    exact ⟨pyRand i % 183, rfl⟩
  · unfold addTicket2 at h2
    split at h2
    · exact Option.noConfusion h2
    injection h2 with h2
    subst h2
    refine ⟨rfl, ?_⟩
    intro t ht
    rw [List.tail_cons, seedTickets2] at ht
    obtain ⟨i, _, rfl⟩ := List.mem_map.1 ht
    exact ⟨pyRand i % 183, rfl⟩

/-- The ticket the first revision's submit branch builds on a seeded store
on 2026-10-12: note the month-day-year date string. -/
def demoSeedNew1 : Ticket1 :=
  { id := "TICKET-1101", issue := "x", status := "Open", priority := "High",
    dateSubmitted := .str "10-12-2026" }

/-- The ticket the later revision's submit branch builds on a seeded store
on 2026-10-12: note the year-month-day date string. -/
def demoSeedNew2 : Ticket2 :=
  { id := "TICKET-1101", issue := "x", status := "Open", priority := "High",
    dateSubmitted := .str "2026-10-12", assignedTo := "John Doe",
    responseTime := 3, resolutionTime := 24 }

set_option maxRecDepth 100000 in
/-- Witness for `date_column_mixed_after_add`: submit on the concretely
seeded stores on 2026-10-12; the first revision's new head cell is the
string `"10-12-2026"` and the later revision's is `"2026-10-12"`. -/
theorem date_column_mixed_after_add_witness :
    (addTicket1 (seedTickets1 0 (fun _ => 0)) "x" "High" 2026 10 12
      = some (demoSeedNew1 :: seedTickets1 0 (fun _ => 0))) ∧
    (addTicket2 (seedTickets2 0 (fun _ => 0)) "x" "High" "John Doe" 3 24 2026 10 12
      = some (demoSeedNew2 :: seedTickets2 0 (fun _ => 0))) ∧
    ((demoSeedNew1 :: seedTickets1 0 (fun _ => 0)).head?.map Ticket1.dateSubmitted
      = some (.str (strftimeMDY 2026 10 12))) := by
  have h1 : addTicket1 (seedTickets1 0 (fun _ => 0)) "x" "High" 2026 10 12
      = some (demoSeedNew1 :: seedTickets1 0 (fun _ => 0)) := by decide
  have h2 : addTicket2 (seedTickets2 0 (fun _ => 0)) "x" "High" "John Doe" 3 24 2026 10 12
      = some (demoSeedNew2 :: seedTickets2 0 (fun _ => 0)) := by decide
  exact ⟨h1, h2, ((date_column_mixed_after_add 0 (fun _ => 0) 2026 10 12 "x" "High"
    _ h1 "x" "High" "John Doe" 3 24 _ h2).1).1⟩

/-! ## C7 — CSV export round-trip -/

/-- Splitting a list that does not contain the separator yields the list
itself as the only part. -/
theorem splitOnCharL_of_not_mem (c : Char) (l : List Char) (h : ∀ x ∈ l, x ≠ c) :
    splitOnCharL c l = [l] := by
  induction l with
  | nil => rfl
  | cons x xs ih =>
    rw [List.forall_mem_cons] at h
    simp [splitOnCharL, h.1, ih h.2]

/-- Splitting cuts at the first separator occurrence when the prefix is
separator-free. -/
theorem splitOnCharL_append (c : Char) (p rest : List Char) (h : ∀ x ∈ p, x ≠ c) :
    splitOnCharL c (p ++ c :: rest) = p :: splitOnCharL c rest := by
  induction p with
  | nil => simp [splitOnCharL]
  | cons x xs ih =>
    rw [List.forall_mem_cons] at h
    simp [splitOnCharL, h.1, ih h.2]

/-- A field without special characters is written bare by `to_csv`. -/
theorem csvField_eq_self {f : String} (h : f.data.any isCsvSpecial = false) :
    csvField f = f := by
  rw [csvField, if_neg]
  simp [h]

/-- A clean field's characters are not commas, quotes or newlines. -/
theorem clean_field_chars {f : String} (h : f.data.any isCsvSpecial = false) :
    ∀ x ∈ f.data, x ≠ ',' ∧ x ≠ '"' ∧ x ≠ '\n' := by
  intro x hx
  have hc := List.any_eq_false.1 h x hx
  simp only [isCsvSpecial, Bool.or_eq_true, decide_eq_true_eq, not_or] at hc
  obtain ⟨⟨⟨h1, h2⟩, h3⟩, _⟩ := hc
  exact ⟨h1, h2, h3⟩

/-- Reading a bare field stops exactly at the trailing separator. -/
theorem readBare_append (f rest : List Char) (hf : ∀ c ∈ f, c ≠ ',' ∧ c ≠ '\n')
    (hr : rest.head? = some ',' ∨ rest.head? = some '\n') :
    readBare (f ++ rest) = (f, rest) := by
  induction f with
  | nil =>
    cases rest with
    | nil => simp at hr
    | cons c cs =>
      simp only [List.head?_cons, Option.some.injEq] at hr
      rw [List.nil_append, readBare, if_pos hr]
  | cons c f' ih =>
    rw [List.forall_mem_cons] at hf
    have hc : ¬ (c = ',' ∨ c = '\n') := by
      rcases hf.1 with ⟨h1, h2⟩
      rintro (rfl | rfl)
      · exact h1 rfl
      · exact h2 rfl
    rw [List.cons_append, readBare, if_neg hc]
    rw [ih hf.2]

/-- Reading a quoted field body undoes the quote escaping, for any field
content, and stops at the closing quote. -/
theorem readQuoted_cons_ne {c : Char} (cs : List Char) (hc : ¬ c = '"') :
    readQuoted (c :: cs) = (readQuoted cs).map fun p => (c :: p.1, p.2) := by
  rw [readQuoted.eq_def]
  simp [hc]

theorem readQuoted_escape (f rest : List Char) (hr : rest.head? ≠ some '"') :
    readQuoted (escapeQuotes f ++ '"' :: rest) = some (f, rest) := by
  induction f with
  | nil =>
    cases rest with
    | nil => rfl
    | cons c cs =>
      have hc : ¬ c = '"' := by simpa using hr
      show (if c = '"' then (readQuoted cs).map fun p => ('"' :: p.1, p.2)
            else some ([], c :: cs)) = some ([], c :: cs)
      rw [if_neg hc]
  | cons c f' ih =>
    by_cases hc : c = '"'
    · subst hc
      calc readQuoted (escapeQuotes ('"' :: f') ++ '"' :: rest)
          = (readQuoted (escapeQuotes f' ++ '"' :: rest)).map fun p => ('"' :: p.1, p.2) :=
            rfl
        _ = some ('"' :: f', rest) := by rw [ih]; rfl
    · have hesc : escapeQuotes (c :: f') = c :: escapeQuotes f' := by
        simp [escapeQuotes, hc]
      rw [hesc, List.cons_append, readQuoted_cons_ne _ hc, ih]
      rfl

/-- Reading one field undoes `to_csv`'s field encoding, quoted or bare. -/
theorem readField_csvField (f : String) (rest : List Char)
    (hr : rest.head? = some ',' ∨ rest.head? = some '\n') :
    readField ((csvField f).data ++ rest) = some (f.data, rest) := by
  have hrq : rest.head? ≠ some '"' := by
    rcases hr with h | h <;> rw [h] <;> decide
  by_cases hs : f.data.any isCsvSpecial
  · have hq : (csvField f).data = '"' :: (escapeQuotes f.data ++ ['"']) := by
      rw [csvField, if_pos hs]
    rw [hq, List.cons_append, readField, if_pos rfl, List.append_assoc]
    rw [show (['"'] ++ rest : List Char) = '"' :: rest from rfl]
    exact readQuoted_escape f.data rest hrq
  · have hfalse : f.data.any isCsvSpecial = false := by
      simp only [Bool.not_eq_true] at hs
      exact hs
    have hchars := clean_field_chars hfalse
    rw [csvField_eq_self hfalse]
    cases hfd : f.data with
    | nil =>
      rw [List.nil_append]
      cases rest with
      | nil => simp at hr
      | cons c cs =>
        simp only [List.head?_cons, Option.some.injEq] at hr
        have hcq : ¬ c = '"' := by
          rcases hr with rfl | rfl <;> decide
        rw [readField, if_neg hcq]
        rw [readBare, if_pos hr]
    | cons c cs' =>
      rw [hfd] at hchars
      have hcq : ¬ c = '"' := (hchars c (by simp)).2.1
      rw [List.cons_append, readField, if_neg hcq]
      rw [show (c :: (cs' ++ rest)) = (c :: cs') ++ rest from rfl]
      rw [readBare_append (c :: cs') rest
        (fun x hx => ⟨(hchars x hx).1, (hchars x hx).2.2⟩) hr]

/-- A one-field CSV line is the encoded field. -/
theorem csvLine_single (f : String) : csvLine [f] = (csvField f).data := rfl

/-- A multi-field CSV line is the encoded head field, a comma, and the rest
of the line. -/
theorem csvLine_cons (f g : String) (fs : List String) :
    csvLine (f :: g :: fs) = (csvField f).data ++ ',' :: csvLine (g :: fs) := rfl

/-- A CSV line has at least one character per field beyond the first. -/
theorem csvLine_length (fields : List String) :
    fields.length ≤ (csvLine fields).length + 1 := by
  induction fields with
  | nil => simp
  | cons f fs ih =>
    cases fs with
    | nil => simp
    | cons g fs' =>
      rw [csvLine_cons]
      simp only [List.length_cons, List.length_append] at ih ⊢
      omega

/-- Reading one record undoes the encoding of one newline-terminated line,
for any field contents, given fuel at least the field count. -/
theorem readRecordAux_csvLine (fields : List String) (rest : List Char) :
    ∀ fuel, fields.length ≤ fuel → fields ≠ [] →
    readRecordAux fuel (csvLine fields ++ '\n' :: rest) = some (fields, rest) := by
  induction fields with
  | nil => intro fuel _ hne; exact absurd rfl hne
  | cons f fs ih =>
    intro fuel hfuel _
    match fuel, hfuel with
    | fuel + 1, hfuel =>
      cases fs with
      | nil =>
        rw [show csvLine [f] = (csvField f).data from rfl]
        simp only [readRecordAux]
        rw [readField_csvField f ('\n' :: rest) (Or.inr rfl)]
        exact rfl
      | cons g fs' =>
        rw [show csvLine (f :: g :: fs') ++ '\n' :: rest
            = (csvField f).data ++ ',' :: (csvLine (g :: fs') ++ '\n' :: rest) from by
          rw [csvLine_cons, List.append_assoc]; rfl]
        simp only [readRecordAux]
        rw [readField_csvField f (',' :: (csvLine (g :: fs') ++ '\n' :: rest)) (Or.inl rfl)]
        show (match readRecordAux fuel (csvLine (g :: fs') ++ '\n' :: rest) with
              | none => none
              | some (fs, r') => some ((⟨f.data⟩ : String) :: fs, r'))
            = some (f :: g :: fs', rest)
        rw [ih fuel (by simp only [List.length_cons] at hfuel ⊢; omega) (by simp)]

/-- A list ending in a cons cell is not empty. -/
theorem append_cons_isEmpty (A : List Char) (c : Char) (B : List Char) :
    (A ++ c :: B).isEmpty = false := by
  cases A <;> rfl

/-- Each written record contributes at least its newline to the text. -/
theorem writeRows_length (rows : List (List String)) :
    rows.length ≤ ((rows.map csvLine).foldr (fun l acc => l ++ '\n' :: acc) []).length := by
  induction rows with
  | nil => simp
  | cons r rs ih =>
    simp only [List.map_cons, List.foldr_cons, List.length_append, List.length_cons]
    omega

/-- Reading records undoes the newline-terminated serialization of any
sequence of nonempty records, given fuel at least the record count. -/
theorem readRecordsAux_rows (rows : List (List String)) :
    ∀ fuel, rows.length ≤ fuel → (∀ r ∈ rows, r ≠ []) →
    readRecordsAux fuel ((rows.map csvLine).foldr (fun l acc => l ++ '\n' :: acc) [])
      = some rows := by
  induction rows with
  | nil =>
    intro fuel _ _
    cases fuel with
    | zero => rfl
    | succ f => rfl
  | cons r rs ih =>
    intro fuel hfuel hne
    match fuel, hfuel with
    | fuel + 1, hfuel =>
      simp only [List.map_cons, List.foldr_cons]
      simp only [readRecordsAux, append_cons_isEmpty, Bool.false_eq_true, if_false]
      rw [readRecordAux_csvLine r
        ((rs.map csvLine).foldr (fun l acc => l ++ '\n' :: acc) [])
        ((csvLine r ++ '\n' :: (rs.map csvLine).foldr (fun l acc => l ++ '\n' :: acc) []).length
          + 1)
        (by
          have hlen := csvLine_length r
          simp only [List.length_append, List.length_cons]
          omega)
        (hne r (by simp))]
      show (readRecordsAux fuel ((rs.map csvLine).foldr (fun l acc => l ++ '\n' :: acc) [])).map
            (fun rs' => r :: rs')
          = some (r :: rs)
      rw [ih fuel (by simp only [List.length_cons] at hfuel ⊢; omega)
        (fun r' hr' => hne r' (List.mem_cons_of_mem _ hr'))]
      rfl

/-- **C7.** The CSV download serializes the full session store — all rows,
all columns, in store order, with a header line — independently of the
active filter selections (the download expression never mentions
`filtered_df`), and parsing the exported text reconstructs a table with the
same row count whose cells are exactly the store's field values at export
time.  This holds for every store: fields containing commas, quotes or line
breaks are minimally quoted by the writer and the reader restores them. -/
theorem export_roundtrip (df : List Ticket2) (sf pf af : List String) (q : String) :
    downloadData df sf pf af q = exportCsv df ∧
    parseCsvText (exportCsv df) = some (df.map renderRow2) ∧
    (df.map renderRow2).length = df.length := by
  refine ⟨rfl, ?_, by simp⟩
  have hrows : ∀ r ∈ csvHeaderFields :: df.map renderRow2, r ≠ [] := by
    intro r hr
    rcases List.mem_cons.1 hr with rfl | hr2
    · simp [csvHeaderFields]
    · obtain ⟨t, _, rfl⟩ := List.mem_map.1 hr2
      simp [renderRow2]
  have hdata : (exportCsv df).data
      = ((csvHeaderFields :: df.map renderRow2).map csvLine).foldr
          (fun l acc => l ++ '\n' :: acc) [] := rfl
  have hfuel : (csvHeaderFields :: df.map renderRow2).length
      ≤ (((csvHeaderFields :: df.map renderRow2).map csvLine).foldr
          (fun l acc => l ++ '\n' :: acc) []).length + 1 := by
    have := writeRows_length (csvHeaderFields :: df.map renderRow2)
    omega
  rw [parseCsvText, hdata,
    readRecordsAux_rows (csvHeaderFields :: df.map renderRow2) _ hfuel hrows]

set_option maxRecDepth 100000 in
/-- The round-trip on a concrete store whose issue text contains a comma,
an escaped quote and a line break: the writer quotes the field and the
reader restores it verbatim. -/
theorem parseCsvText_handles_quoted_fields :
    parseCsvText (exportCsv
        [{ demoTicket with issue := "Paper jam, tray 2: \"again\"\nsecond line" }])
      = some [["TICKET-1001", "Paper jam, tray 2: \"again\"\nsecond line", "Open", "High",
               "2023-06-01", "John Doe", "3", "24"]] := by
  decide

/-! ## Decimal rendering and Python string comparison: lemmas

The submit branch finds the "most recent" ticket with Python's `max` over
the **id strings** and code-point comparison.  The lemmas below relate that
lexicographic comparison to numeric comparison of the suffixes; the two
agree exactly when the rendered suffixes have equal digit counts. -/

/-- Characters with equal code points are equal. -/
theorem char_eq_of_toNat_eq {a b : Char} (h : a.toNat = b.toNat) : a = b := by
  have h2 := congrArg Char.ofNat h
  rwa [Char.ofNat_toNat, Char.ofNat_toNat] at h2

/-- The fuel used by `decCharsAux` is irrelevant as long as it bounds the
argument. -/
theorem decCharsAux_congr (n : Nat) : ∀ f₁ f₂ : Nat, n < f₁ → n < f₂ →
    decCharsAux f₁ n = decCharsAux f₂ n := by
  induction n using Nat.strong_induction_on with
  | _ n ih =>
    intro f₁ f₂ h₁ h₂
    match f₁, f₂ with
    | a + 1, b + 1 =>
      by_cases h10 : n < 10
      · simp [decCharsAux, h10]
      · simp only [decCharsAux, if_neg h10]
        rw [ih (n / 10) (by omega) a b (by omega) (by omega)]

/-- One-step unfolding of `decCharsAux` with sufficient fuel. -/
theorem decCharsAux_eq (f n : Nat) (h : n < f + 1) :
    decCharsAux (f + 1) n
      = if n < 10 then [digitChar n] else decChars (n / 10) ++ [digitChar (n % 10)] := by
  by_cases h10 : n < 10
  · simp [decCharsAux, h10]
  · simp only [decCharsAux, if_neg h10]
    rw [decCharsAux_congr (n / 10) f (n / 10 + 1) (by omega) (by omega)]
    rw [decChars]

/-- Unfolding `decChars` below ten. -/
theorem decChars_lt (h : n < 10) : decChars n = [digitChar n] := by
  rw [decChars, decCharsAux_eq n n (by omega), if_pos h]

/-- Unfolding `decChars` at ten and above. -/
theorem decChars_ge (h : 10 ≤ n) : decChars n = decChars (n / 10) ++ [digitChar (n % 10)] := by
  rw [decChars, decCharsAux_eq n n (by omega), if_neg (by omega : ¬ n < 10)]

/-- A decimal rendering is never empty. -/
theorem decChars_ne_nil (n : Nat) : decChars n ≠ [] := by
  by_cases h : n < 10
  · rw [decChars_lt h]; simp
  · rw [decChars_ge (by omega)]; simp

/-- The code point of a digit character. -/
theorem digitChar_toNat (h : d < 10) : (digitChar d).toNat = 48 + d := by
  interval_cases d <;> rfl

/-- Every character of a decimal rendering is an ASCII digit. -/
theorem decChars_digit (n : Nat) : ∀ c ∈ decChars n, 48 ≤ c.toNat ∧ c.toNat ≤ 57 := by
  induction n using Nat.strong_induction_on with
  | _ n ih =>
    intro c hc
    by_cases h : n < 10
    · rw [decChars_lt h] at hc
      simp only [List.mem_singleton] at hc
      subst hc
      rw [digitChar_toNat h]
      omega
    · rw [decChars_ge (by omega)] at hc
      rcases List.mem_append.1 hc with h1 | h2
      · exact ih (n / 10) (by omega) c h1
      · simp only [List.mem_singleton] at h2
        subst h2
        rw [digitChar_toNat (by omega)]
        omega

/-- Folding the digit-accumulation step over a decimal rendering recovers
the rendered number. -/
theorem foldl_decChars (n : Nat) : ∀ acc : Nat,
    (decChars n).foldl (fun a c => 10 * a + (c.toNat - 48)) acc
      = acc * 10 ^ (decChars n).length + n := by
  induction n using Nat.strong_induction_on with
  | _ n ih =>
    intro acc
    by_cases h : n < 10
    · rw [decChars_lt h]
      simp [List.foldl_cons, digitChar_toNat h]
      omega
    · rw [decChars_ge (by omega), List.foldl_append]
      rw [ih (n / 10) (by omega) acc]
      simp only [List.foldl_cons, List.foldl_nil, List.length_append, List.length_singleton]
      rw [digitChar_toNat (by omega : n % 10 < 10)]
      rw [pow_succ]
      have h2 : 48 + n % 10 - 48 = n % 10 := by omega
      rw [h2]
      ring_nf
      omega

/-- `int(str(n)) = n`: parsing a decimal rendering recovers the number. -/
theorem decParse?_natToDec (n : Nat) : decParse? (natToDec n) = some n := by
  rw [decParse?, if_pos]
  · have h := foldl_decChars n 0
    rw [natToDec]
    simp only []
    rw [h]
    simp
  · constructor
    · exact decChars_ne_nil n
    · rw [List.all_eq_true]
      intro c hc
      have := decChars_digit n c hc
      simp [isDigitCh]
      omega

/-- Decimal renderings are injective. -/
theorem decChars_inj {a b : Nat} (h : decChars a = decChars b) : a = b := by
  have ha := foldl_decChars a 0
  have hb := foldl_decChars b 0
  rw [h] at ha
  rw [ha] at hb
  omega

/-- Code-point comparison ignores an equal prefix. -/
theorem listLtB_append_left (p xs ys : List Char) :
    listLtB (p ++ xs) (p ++ ys) = listLtB xs ys := by
  induction p with
  | nil => rfl
  | cons c cs ih => simp [listLtB, ih]

/-- Code-point comparison is unchanged by an equal head. -/
theorem listLtB_cons_same (a : Char) (as bs : List Char) :
    listLtB (a :: as) (a :: bs) = listLtB as bs := by
  simp [listLtB]

/-- Comparing one-character lists is comparing the code points. -/
theorem listLtB_single (x y : Char) : listLtB [x] [y] = decide (x.toNat < y.toNat) := by
  rcases Nat.lt_trichotomy x.toNat y.toNat with h | h | h
  · simp [listLtB, h]
  · simp [listLtB, h]
  · have h2 : ¬ x.toNat < y.toNat := Nat.lt_asymm h
    simp [listLtB, h, h2]

/-- Comparing equal-length lists extended by one character: first the
common-length parts, then the appended characters. -/
theorem listLtB_concat {xs ys : List Char} (x y : Char) (hlen : xs.length = ys.length) :
    (listLtB (xs ++ [x]) (ys ++ [y]) = true
      ↔ listLtB xs ys = true ∨ (xs = ys ∧ x.toNat < y.toNat)) := by
  induction xs generalizing ys with
  | nil =>
    match ys, hlen with
    | [], _ =>
      rw [List.nil_append, List.nil_append, listLtB_single]
      simp [listLtB]
  | cons a as ih =>
    match ys, hlen with
    | b :: bs, hlen =>
      simp only [List.length_cons, Nat.add_right_cancel_iff] at hlen
      rcases Nat.lt_trichotomy a.toNat b.toNat with h | h | h
      · simp [listLtB, h]
      · have hab : a = b := char_eq_of_toNat_eq h
        subst hab
        rw [List.cons_append, List.cons_append, listLtB_cons_same, listLtB_cons_same,
          ih hlen]
        constructor
        · rintro (h1 | ⟨h2, h3⟩)
          · exact Or.inl h1
          · exact Or.inr ⟨by rw [h2], h3⟩
        · rintro (h1 | ⟨h2, h3⟩)
          · exact Or.inl h1
          · injection h2 with _ h4
            exact Or.inr ⟨h4, h3⟩
      · have h2 : ¬ a.toNat < b.toNat := Nat.lt_asymm h
        have hne : a ≠ b := fun he => by
          rw [he] at h
          exact Nat.lt_irrefl _ h
        simp [listLtB, h, h2, hne]

/-- For suffixes rendered with the same digit count, code-point comparison
of the renderings is numeric comparison. -/
theorem listLtB_decChars {a b : Nat} (hlen : (decChars a).length = (decChars b).length) :
    (listLtB (decChars a) (decChars b) = true ↔ a < b) := by
  induction a using Nat.strong_induction_on generalizing b with
  | _ a ih =>
    by_cases ha : a < 10
    · by_cases hb : b < 10
      · rw [decChars_lt ha, decChars_lt hb, listLtB_single,
          digitChar_toNat ha, digitChar_toNat hb]
        simp only [decide_eq_true_eq]
        omega
      · exfalso
        rw [decChars_lt ha, decChars_ge (by omega)] at hlen
        simp only [List.length_append, List.length_singleton] at hlen
        have hpos := List.length_pos.2 (decChars_ne_nil (b / 10))
        omega
    · by_cases hb : b < 10
      · exfalso
        rw [decChars_lt hb, decChars_ge (by omega : 10 ≤ a)] at hlen
        simp only [List.length_append, List.length_singleton] at hlen
        have hpos := List.length_pos.2 (decChars_ne_nil (a / 10))
        omega
      · rw [decChars_ge (by omega : 10 ≤ a), decChars_ge (by omega : 10 ≤ b)] at hlen ⊢
        simp only [List.length_append, List.length_singleton] at hlen
        have hlen' : (decChars (a / 10)).length = (decChars (b / 10)).length := by omega
        rw [listLtB_concat _ _ hlen']
        rw [ih (a / 10) (by omega) hlen']
        rw [digitChar_toNat (by omega : a % 10 < 10), digitChar_toNat (by omega : b % 10 < 10)]
        constructor
        · rintro (h | ⟨heq, h⟩)
          · omega
          · have := decChars_inj heq
            omega
        · intro h
          by_cases hd : a / 10 < b / 10
          · exact Or.inl hd
          · refine Or.inr ⟨?_, by omega⟩
            have : a / 10 = b / 10 := by omega
            rw [this]

/-- Python `<` on two ticket ids with equal suffix digit counts is numeric
comparison of the suffixes. -/
theorem pyStrLt_ticket {a b : Nat} (hlen : (decChars a).length = (decChars b).length) :
    (pyStrLt ("TICKET-" ++ natToDec a) ("TICKET-" ++ natToDec b) = true ↔ a < b) := by
  rw [pyStrLt, String.data_append, String.data_append, natToDec, natToDec]
  rw [show (String.mk (decChars a)).data = decChars a from rfl,
    show (String.mk (decChars b)).data = decChars b from rfl]
  rw [listLtB_append_left]
  exact listLtB_decChars hlen

/-! ## Maxima -/

/-- The numeric maximum of a list (0 for the empty list); the mathematical
counterpart of the submit branch's `max` over id strings. -/
def maxOfList : List Nat → Nat
  | [] => 0
  | h :: t => t.foldl Nat.max h

/-- The left argument never exceeds a `Nat.max`. -/
theorem natMax_le_left (a b : Nat) : a ≤ Nat.max a b := by
  show a ≤ if a ≤ b then b else a
  split <;> omega

/-- The right argument never exceeds a `Nat.max`. -/
theorem natMax_le_right (a b : Nat) : b ≤ Nat.max a b := by
  show b ≤ if a ≤ b then b else a
  split <;> omega

/-- `Nat.max` picks the larger second argument. -/
theorem natMax_eq_right {a b : Nat} (h : a ≤ b) : Nat.max a b = b := by
  show (if a ≤ b then b else a) = b
  split <;> omega

/-- `Nat.max` picks the larger first argument. -/
theorem natMax_eq_left {a b : Nat} (h : b ≤ a) : Nat.max a b = a := by
  show (if a ≤ b then b else a) = a
  split <;> omega

/-- The accumulator never exceeds a `max` fold. -/
theorem le_foldl_max (t : List Nat) : ∀ h : Nat, h ≤ t.foldl Nat.max h := by
  induction t with
  | nil => simp
  | cons n t ih =>
    intro h
    rw [List.foldl_cons]
    calc h ≤ Nat.max h n := natMax_le_left h n
    _ ≤ t.foldl Nat.max (Nat.max h n) := ih _

/-- Every member is bounded by the `max` fold. -/
theorem mem_le_foldl_max {x : Nat} : ∀ {t : List Nat}, x ∈ t →
    ∀ h : Nat, x ≤ t.foldl Nat.max h := by
  intro t
  induction t with
  | nil => intro hx; cases hx
  | cons n t ih =>
    intro hx h
    rw [List.foldl_cons]
    rcases List.mem_cons.1 hx with rfl | hx2
    · calc x ≤ Nat.max h x := natMax_le_right h x
      _ ≤ t.foldl Nat.max (Nat.max h x) := le_foldl_max t _
    · exact ih hx2 (Nat.max h n)

/-- Every member of a list is at most its `maxOfList`. -/
theorem mem_le_maxOfList {x : Nat} {l : List Nat} (hx : x ∈ l) : x ≤ maxOfList l := by
  cases l with
  | nil => cases hx
  | cons h t =>
    rcases List.mem_cons.1 hx with rfl | hx2
    · exact le_foldl_max t x
    · exact mem_le_foldl_max hx2 h

/-- A `max` fold yields the accumulator or a member. -/
theorem foldl_max_mem (t : List Nat) : ∀ h : Nat, t.foldl Nat.max h ∈ h :: t := by
  induction t with
  | nil => intro h; simp
  | cons n t ih =>
    intro h
    have hmem := ih (Nat.max h n)
    rw [List.foldl_cons]
    rcases Nat.le_total h n with hle | hle
    · have hmax : Nat.max h n = n := natMax_eq_right hle
      rw [hmax] at hmem ⊢
      rcases List.mem_cons.1 hmem with h1 | h2
      · rw [h1]; simp
      · exact List.mem_cons_of_mem _ (List.mem_cons_of_mem _ h2)
    · have hmax : Nat.max h n = h := natMax_eq_left hle
      rw [hmax] at hmem ⊢
      rcases List.mem_cons.1 hmem with h1 | h2
      · rw [h1]; simp
      · exact List.mem_cons_of_mem _ (List.mem_cons_of_mem _ h2)

/-- `maxOfList` of a nonempty list is a member. -/
theorem maxOfList_mem {l : List Nat} (hne : l ≠ []) : maxOfList l ∈ l := by
  cases l with
  | nil => exact absurd rfl hne
  | cons h t => exact foldl_max_mem t h

/-! ## The submit branch's id computation -/

/-- Lockstep fold: Python's string `max` over ticket ids with equal suffix
digit counts is the numeric `max` over the suffixes. -/
theorem foldl_pyMax_ticket {d : Nat} (t : List Nat) : ∀ h : Nat,
    (∀ n ∈ h :: t, (decChars n).length = d) →
    (t.map fun n => "TICKET-" ++ natToDec n).foldl
      (fun a b => if pyStrLt a b then b else a) ("TICKET-" ++ natToDec h)
    = "TICKET-" ++ natToDec (t.foldl Nat.max h) := by
  induction t with
  | nil => intro h _; rfl
  | cons n t ih =>
    intro h hlen
    rw [List.map_cons, List.foldl_cons, List.foldl_cons]
    have hh : (decChars h).length = d := hlen h (by simp)
    have hn : (decChars n).length = d := hlen n (by simp)
    have hrest : ∀ m ∈ Nat.max h n :: t, (decChars m).length = d := by
      intro m hm
      rcases List.mem_cons.1 hm with rfl | hm2
      · rcases Nat.le_total h n with hle | hle
        · rw [natMax_eq_right hle]; exact hn
        · rw [natMax_eq_left hle]; exact hh
      · exact hlen m (List.mem_cons_of_mem _ (List.mem_cons_of_mem _ hm2))
    by_cases hc : h < n
    · have hmax : Nat.max h n = n := natMax_eq_right (Nat.le_of_lt hc)
      rw [if_pos ((pyStrLt_ticket (by rw [hh, hn])).2 hc), hmax]
      rw [hmax] at hrest
      exact ih n hrest
    · have hmax : Nat.max h n = h := natMax_eq_left (by omega)
      have hnlt : ¬ (pyStrLt ("TICKET-" ++ natToDec h) ("TICKET-" ++ natToDec n) = true) :=
        fun hp => hc ((pyStrLt_ticket (by rw [hh, hn])).1 hp)
      rw [if_neg hnlt, hmax]
      rw [hmax] at hrest
      exact ih h hrest

/-- Python's `max` over ticket ids with equal suffix digit counts yields the
id carrying the numeric maximum suffix. -/
theorem pyMaxStr_ticket {d : Nat} (l : List Nat) (hne : l ≠ [])
    (hlen : ∀ n ∈ l, (decChars n).length = d) :
    pyMaxStr (l.map fun n => "TICKET-" ++ natToDec n)
      = some ("TICKET-" ++ natToDec (maxOfList l)) := by
  cases l with
  | nil => exact absurd rfl hne
  | cons h t => exact congrArg some (foldl_pyMax_ticket t h hlen)

/-- Digit characters differ from every character with a code point outside
the digit range. -/
theorem decChars_ne_char (n : Nat) {c : Char} (hc : c.toNat < 48 ∨ 57 < c.toNat) :
    ∀ x ∈ decChars n, x ≠ c := by
  intro x hx he
  have hd := decChars_digit n x hx
  subst he
  omega

/-- `str.split("-")` on a well-formed ticket id. -/
theorem pySplit_ticket (k : Nat) :
    pySplit '-' ("TICKET-" ++ natToDec k) = ["TICKET", natToDec k] := by
  rw [pySplit]
  rw [show ("TICKET-" ++ natToDec k).data = "TICKET".data ++ '-' :: decChars k from rfl]
  rw [splitOnCharL_append '-' _ _ (by decide)]
  rw [splitOnCharL_of_not_mem '-' _ (decChars_ne_char k (by decide))]
  rfl

/-- The submit branch's number computation on ids with equal suffix digit
counts: it parses the numeric maximum of the suffixes. -/
theorem recentTicketNumber_eq {d : Nat} (l : List Nat) (hne : l ≠ [])
    (hlen : ∀ n ∈ l, (decChars n).length = d) :
    recentTicketNumber (l.map fun n => "TICKET-" ++ natToDec n) = some (maxOfList l) := by
  rw [recentTicketNumber, pyMaxStr_ticket l hne hlen]
  simp only [Option.some_bind]
  rw [pySplit_ticket]
  show decParse? (natToDec (maxOfList l)) = some (maxOfList l)
  exact decParse?_natToDec _

/-- The numeric suffix parsed back from a well-formed id. -/
theorem idSuffix2_mk {t : Ticket2} {k : Nat} (h : t.id = "TICKET-" ++ natToDec k) :
    idSuffix2 t = k := by
  rw [idSuffix2, h, pySplit_ticket]
  rw [show (["TICKET", natToDec k].getD 1 "") = natToDec k from rfl, decParse?_natToDec]
  rfl

/-- Well-formedness of a store for the id computation: every id is
`TICKET-` followed by the decimal rendering of its own parsed suffix, and
all suffix renderings have the same digit count `d` (no leading zeros, by
construction of `natToDec`). -/
def GoodIds (df : List Ticket2) (d : Nat) : Prop :=
  ∀ t ∈ df, t.id = "TICKET-" ++ natToDec (idSuffix2 t) ∧ (decChars (idSuffix2 t)).length = d

instance (df : List Ticket2) (d : Nat) : Decidable (GoodIds df d) :=
  inferInstanceAs (Decidable (∀ t ∈ df,
    t.id = "TICKET-" ++ natToDec (idSuffix2 t) ∧ (decChars (idSuffix2 t)).length = d))

/-- Characterization of a successful submit on a nonempty store with
uniform suffix digit count: the new ticket carries the numeric maximum
suffix plus one, status `Open`, today's date string, and is prepended. -/
theorem addTicket2_eq (df : List Ticket2) (issue priority assignedTo : String)
    (rt rst y m dd : Nat) {d : Nat} (hne : df ≠ []) (hgood : GoodIds df d) :
    addTicket2 df issue priority assignedTo rt rst y m dd
      = some ({ id := "TICKET-" ++ natToDec (maxOfList (df.map idSuffix2) + 1),
                issue := issue, status := "Open", priority := priority,
                dateSubmitted := .str (strftimeYMD y m dd), assignedTo := assignedTo,
                responseTime := rt, resolutionTime := rst } :: df) := by
  have hmap : df.map Ticket2.id = (df.map idSuffix2).map fun n => "TICKET-" ++ natToDec n := by
    rw [List.map_map]
    exact List.map_congr_left fun t ht => (hgood t ht).1
  have hlen : ∀ n ∈ df.map idSuffix2, (decChars n).length = d := by
    intro n hn
    obtain ⟨t, ht, rfl⟩ := List.mem_map.1 hn
    exact (hgood t ht).2
  rw [addTicket2, hmap, recentTicketNumber_eq (df.map idSuffix2) (by simpa using hne) hlen]

/-! ## C3 — the id assigned by AddTicket -/

/-- A store that is well-formed per the data model (`TICKET-<integer>` ids)
but whose suffixes have different digit counts. -/
def lexCounterStore : List Ticket2 :=
  [{ id := "TICKET-999", issue := "Backup failure", status := "Open", priority := "High",
     dateSubmitted := .pyDate 3, assignedTo := "John Doe",
     responseTime := 2, resolutionTime := 12 },
   { id := "TICKET-1000", issue := "Login problems", status := "Closed", priority := "Low",
     dateSubmitted := .pyDate 8, assignedTo := "Jane Smith",
     responseTime := 4, resolutionTime := 30 }]

/-- The ticket the submit branch builds on `lexCounterStore`. -/
def lexCounterNew : Ticket2 :=
  { id := "TICKET-1000", issue := "x", status := "Open", priority := "High",
    dateSubmitted := .str "2026-10-12", assignedTo := "John Doe",
    responseTime := 1, resolutionTime := 12 }

/-- **C3 (counterexample).** The submit branch computes Python's `max` over
the id **strings**, which is lexicographic: on the store with ids
`TICKET-999` and `TICKET-1000` the string maximum is `TICKET-999`, so the
new ticket gets id `TICKET-1000` — not `TICKET-1001`, although the maximum
numeric suffix is 1000 — and that id already exists in the store.  The
claim, quantified over every non-empty store, is therefore false. -/
theorem addTicket_not_numeric_max_plus_one :
    addTicket2 lexCounterStore "x" "High" "John Doe" 1 12 2026 10 12
      = some (lexCounterNew :: lexCounterStore) ∧
    maxOfList (lexCounterStore.map idSuffix2) = 1000 ∧
    lexCounterNew.id ≠ "TICKET-" ++ natToDec (1000 + 1) ∧
    lexCounterNew.id ∈ lexCounterStore.map Ticket2.id := by
  refine ⟨rfl, rfl, by decide, by decide⟩

/-- **C3 (amended).** For every non-empty store whose id suffixes all render
with the same digit count (as in every store the app actually reaches —
seeding yields `1001`–`1100`), the submit branch assigns the id
`TICKET-(m+1)` where `m` is the maximum numeric suffix, sets the status to
`Open`, prepends the new ticket, and grows the store by exactly one row.
On stores with mixed suffix digit counts the lexicographic string maximum
departs from the numeric maximum (see the counterexample). -/
theorem addTicket_assigns_max_suffix_plus_one (df : List Ticket2)
    (issue priority assignedTo : String) (rt rst y m dd : Nat) (d : Nat)
    (hne : df ≠ []) (hgood : GoodIds df d) :
    addTicket2 df issue priority assignedTo rt rst y m dd
      = some ({ id := "TICKET-" ++ natToDec (maxOfList (df.map idSuffix2) + 1),
                issue := issue, status := "Open", priority := priority,
                dateSubmitted := .str (strftimeYMD y m dd), assignedTo := assignedTo,
                responseTime := rt, resolutionTime := rst } :: df) ∧
    (∀ df', addTicket2 df issue priority assignedTo rt rst y m dd = some df' →
      df'.length = df.length + 1) := by
  refine ⟨addTicket2_eq df issue priority assignedTo rt rst y m dd hne hgood, ?_⟩
  intro df' h
  rw [addTicket2_eq df issue priority assignedTo rt rst y m dd hne hgood] at h
  injection h with h
  rw [← h]
  simp

/-- A second uniform-suffix demo ticket. -/
def demoTicketB : Ticket2 :=
  { id := "TICKET-1005", issue := "Printer malfunction", status := "Closed",
    priority := "Low", dateSubmitted := .pyDate 40, assignedTo := "Alex Brown",
    responseTime := 5, resolutionTime := 60 }

/-- Witness for `addTicket_assigns_max_suffix_plus_one` on a concrete
two-row store with suffixes 1005 and 1001: the new id is `TICKET-1006`. -/
theorem addTicket_assigns_max_suffix_plus_one_witness :
    ([demoTicketB, demoTicket] ≠ ([] : List Ticket2)) ∧ GoodIds [demoTicketB, demoTicket] 4 ∧
    addTicket2 [demoTicketB, demoTicket] "y" "Medium" "Chris White" 6 30 2026 10 12
      = some ({ id := "TICKET-" ++ natToDec
                  (maxOfList ([demoTicketB, demoTicket].map idSuffix2) + 1),
                issue := "y", status := "Open", priority := "Medium",
                dateSubmitted := .str (strftimeYMD 2026 10 12), assignedTo := "Chris White",
                responseTime := 6, resolutionTime := 30 } :: [demoTicketB, demoTicket]) :=
  ⟨by decide, by decide,
    (addTicket_assigns_max_suffix_plus_one [demoTicketB, demoTicket] "y" "Medium"
      "Chris White" 6 30 2026 10 12 4 (by decide) (by decide)).1⟩

/-! ## C8 — id invariants of reachable stores -/

/-- A reachable store is never empty (seeding precedes the first submit,
which is the only mutation). -/
theorem reachable2_ne_nil {df : List Ticket2} (h : Reachable2 df) : df ≠ [] := by
  induction h with
  | seed sd py =>
    intro hc
    have hlen := congrArg List.length hc
    rw [seedTickets2] at hlen
    simp at hlen
  | add df df' issue priority assignedTo rt rst y m dd hr hadd ih =>
    unfold addTicket2 at hadd
    split at hadd
    · exact Option.noConfusion hadd
    injection hadd with hadd
    rw [← hadd]
    simp

/-- A successful submit on a nonempty uniform-suffix store prepends a
ticket whose suffix strictly exceeds every suffix present. -/
theorem addTicket2_fresh {df df' : List Ticket2} {issue priority assignedTo : String}
    {rt rst y m dd d : Nat} (hne : df ≠ []) (hgood : GoodIds df d)
    (h : addTicket2 df issue priority assignedTo rt rst y m dd = some df') :
    ∃ newT, df' = newT :: df ∧
      idSuffix2 newT = maxOfList (df.map idSuffix2) + 1 ∧
      ∀ t ∈ df, idSuffix2 t < idSuffix2 newT := by
  rw [addTicket2_eq df issue priority assignedTo rt rst y m dd hne hgood] at h
  injection h with h
  refine ⟨{ id := "TICKET-" ++ natToDec (maxOfList (df.map idSuffix2) + 1),
            issue := issue, status := "Open", priority := priority,
            dateSubmitted := .str (strftimeYMD y m dd), assignedTo := assignedTo,
            responseTime := rt, resolutionTime := rst },
    h.symm, idSuffix2_mk rfl, ?_⟩
  intro t ht
  have hsufNew : idSuffix2 ({
        id := "TICKET-" ++ natToDec (maxOfList (df.map idSuffix2) + 1),
        issue := issue, status := "Open", priority := priority,
        dateSubmitted := .str (strftimeYMD y m dd), assignedTo := assignedTo,
        responseTime := rt, resolutionTime := rst } : Ticket2)
      = maxOfList (df.map idSuffix2) + 1 := idSuffix2_mk rfl
  rw [hsufNew]
  have hmem : idSuffix2 t ∈ df.map idSuffix2 := List.mem_map_of_mem _ ht
  have hle := mem_le_maxOfList hmem
  omega

/-- **C8 (counterexample).** The seeded store is reachable, and seeding
creates its rows in list order with ids `TICKET-1100` down to
`TICKET-1001` (`range(1100, 1000, -1)`, line 213): the numeric suffix is
strictly *decreasing* in creation order there, so the claim that the
suffix is strictly increasing in creation order over every reachable store
is false. -/
theorem seeded_suffixes_decrease_in_creation_order :
    Reachable2 (seedTickets2 0 (fun _ => 0)) ∧
    ((seedTickets2 0 (fun _ => 0)).map idSuffix2).take 3 = [1100, 1099, 1098] ∧
    ¬ List.Chain' (· < ·) ((seedTickets2 0 (fun _ => 0)).map idSuffix2) := by
  have htake : ((seedTickets2 0 (fun _ => 0)).map idSuffix2).take 3 = [1100, 1099, 1098] := by
    decide
  refine ⟨.seed 0 (fun _ => 0), htake, ?_⟩
  intro h
  have h3 := h.take 3
  rw [htake, List.chain'_cons] at h3
  exact absurd h3.1 (by omega)

/-- **C8 (amended).** In every reachable store all of whose id suffixes
render with four digits (true of every store the app reaches before the
suffix would pass 9999: seeding yields 1001–1100 and each submit adds one),
the id values are pairwise distinct, and every successful submit prepends a
ticket whose numeric suffix strictly exceeds every suffix already present —
so suffixes grow strictly across submits and are never reused.  Within the
seeded batch itself the suffixes are assigned in descending creation order
(see the counterexample), and uniqueness genuinely needs the digit-count
proviso: at suffix 10000 the lexicographic maximum sticks at `TICKET-9999`
and the submit branch would mint `TICKET-10000` twice. -/
theorem reachable_ids_nodup_and_fresh (df : List Ticket2)
    (hreach : Reachable2 df) (hgood : GoodIds df 4) :
    (df.map Ticket2.id).Nodup ∧
    (∀ issue priority assignedTo rt rst y m dd df',
      addTicket2 df issue priority assignedTo rt rst y m dd = some df' →
      ∃ newT, df' = newT :: df ∧ ∀ t ∈ df, idSuffix2 t < idSuffix2 newT) := by
  constructor
  · revert hgood
    induction hreach with
    | seed sd py =>
      intro hgood
      rw [seedTickets2, List.map_map]
      refine List.Nodup.map_on ?_ (List.nodup_range 100)
      intro i hi j hj heq
      simp only [Function.comp] at heq
      have hdata := congrArg String.data heq
      rw [String.data_append, String.data_append] at hdata
      have hdc : decChars (1100 - i) = decChars (1100 - j) :=
        List.append_cancel_left hdata
      have := decChars_inj hdc
      simp only [List.mem_range] at hi hj
      omega
    | add df df' issue priority assignedTo rt rst y m dd hr hadd ih =>
      intro hgood'
      have hadd0 := hadd
      unfold addTicket2 at hadd0
      split at hadd0
      · exact Option.noConfusion hadd0
      injection hadd0 with hadd0
      have hsub : ∀ t ∈ df, t ∈ df' := by
        intro t ht
        rw [← hadd0]
        exact List.mem_cons_of_mem _ ht
      have hgooddf : GoodIds df 4 := fun t ht => hgood' t (hsub t ht)
      have hne : df ≠ [] := reachable2_ne_nil hr
      obtain ⟨newT, hdf', hsuf, hfresh⟩ := addTicket2_fresh hne hgooddf hadd
      rw [hdf', List.map_cons, List.nodup_cons]
      refine ⟨?_, ih hgooddf⟩
      intro hmem
      obtain ⟨t, ht, hid⟩ := List.mem_map.1 hmem
      have hsufeq : idSuffix2 t = idSuffix2 newT := by rw [idSuffix2, hid, ← idSuffix2]
      exact absurd hsufeq (Nat.ne_of_lt (hfresh t ht))
  · intro issue priority assignedTo rt rst y m dd df' h
    obtain ⟨newT, hdf', _, hfresh⟩ :=
      addTicket2_fresh (reachable2_ne_nil hreach) hgood h
    exact ⟨newT, hdf', hfresh⟩

set_option maxRecDepth 100000 in
/-- Witness for `reachable_ids_nodup_and_fresh` at the concretely seeded
store, whose ids are well-formed with four-digit suffixes. -/
theorem reachable_ids_nodup_and_fresh_witness :
    GoodIds (seedTickets2 0 (fun _ => 0)) 4 ∧
    ((seedTickets2 0 (fun _ => 0)).map Ticket2.id).Nodup :=
  ⟨by decide,
    (reachable_ids_nodup_and_fresh _ (.seed 0 (fun _ => 0)) (by decide)).1⟩

end SupportTickets
